import Mathlib

/-!
# KMS output backend (`ui/drm.c`): mode selection, CRTC matching, scanout

A shallow embedding of the display backend in `ui/drm.c`.

Conventions of the embedding:

* `uint32_t` values are natural numbers; a 32-bit product is reduced modulo `2 ^ 32`
  where the source multiplies.
* A C array together with its `count_*` field is a list; the count is the length.
* A pointer into `connector->modes` is the index of the entry it points to.
* Calls into libdrm and into the console layer are recorded as a list of commands;
  what the device answers is an input of the model.
-/

namespace Drm

/-! ## Data model -/

/-- Number of values of a `uint32_t`. -/
def UINT32_SIZE : Nat := 2 ^ 32

/-- Product of two unsigned 32-bit operands, as the C expression `a * b` computes it. -/
def mul_u32 (a b : Nat) : Nat := (a * b) % UINT32_SIZE

/-- Display timing `drmModeModeInfo` of libdrm. The fields the backend reads are
`hdisplay` and `vdisplay` (declared `uint16_t` by libdrm); `vrefresh` is kept to tell
apart entries of equal resolution. -/
structure drmModeModeInfo where
  hdisplay : Nat
  vdisplay : Nat
  vrefresh : Nat
deriving DecidableEq

/-- Connection status `drmModeConnection` of libdrm. -/
inductive drmModeConnection where
  | DRM_MODE_CONNECTED
  | DRM_MODE_DISCONNECTED
  | DRM_MODE_UNKNOWNCONNECTION
deriving DecidableEq

/-- Connector `drmModeConnector` of libdrm: `modes` stands for `modes` with `count_modes`,
`encoders` for `encoders` with `count_encoders`. -/
structure drmModeConnector where
  connector_id : Nat
  encoder_id : Nat
  connection : drmModeConnection
  modes : List drmModeModeInfo
  encoders : List Nat
deriving DecidableEq

/-- Encoder `drmModeEncoder` of libdrm. -/
structure drmModeEncoder where
  encoder_id : Nat
  crtc_id : Nat
  possible_crtcs : Nat
deriving DecidableEq

/-- Resource table `drmModeRes` of libdrm: `crtcs` stands for `crtcs` with `count_crtcs`,
`connectors` for `connectors` with `count_connectors`. `stray` is the word an access
outside the `crtcs` array reads (C leaves it undefined; it is an input here). -/
structure drmModeRes where
  crtcs : List Nat
  connectors : List Nat
  stray : Nat
deriving DecidableEq

/-- The bound output, `struct drm_output`. `mode` is the index in `connector.modes`
of the entry the C pointer designates. -/
structure drm_output where
  connector : drmModeConnector
  mode : Nat
  width : Nat
  height : Nat
  crtc_id : Nat
  connector_id : Nat
  fb_id : Nat
  has_cursor : Bool
  cursor_handle : Nat
  cursor_w : Nat
  cursor_h : Nat
deriving DecidableEq

/-- The part of a `DisplaySurface` the backend inspects: `surface_width`,
`surface_height`, `surface_format`. -/
structure DisplaySurface where
  width : Nat
  height : Nat
  format : Nat
deriving DecidableEq

/-- Pixman format code `PIXMAN_x8r8g8b8`, that is `PIXMAN_FORMAT(32, PIXMAN_TYPE_ARGB, 0, 8, 8, 8)`. -/
def PIXMAN_x8r8g8b8 : Nat := 0x20020888

/-- The session, `drm_dpy`: `ds` is `none` for a NULL surface pointer. The file
descriptor is fixed for the session and left out. -/
structure drm_dpy where
  ds : Option DisplaySurface
  output : drm_output
  pos_x : Nat
  pos_y : Nat
deriving DecidableEq

/-! ## Mode selection -/

/-- The test of the `if` in `choose_mode` for one mode entry. The right-hand product
multiplies two `uint16_t` promoted to `int` and is converted to `uint32_t` by the
comparison, so both products are taken modulo `2 ^ 32`. -/
def mode_test (width height : Nat) (m : drmModeModeInfo) : Bool :=
  decide (width ≥ m.hdisplay) && decide (height ≥ m.vdisplay) &&
    decide (mul_u32 width height ≥ mul_u32 m.hdisplay m.vdisplay)

/-- The `for` loop of `choose_mode`, entered at index `i` with the entries from `i` on. -/
def choose_mode_loop (width height : Nat) : List drmModeModeInfo → Nat → Option Nat
  | [], _ => none
  | m :: rest, i =>
    if mode_test width height m then some i
    else choose_mode_loop width height rest (i + 1)

/-- Model of `choose_mode`: the index of the returned entry, `none` for NULL. -/
def choose_mode (dpy : drm_dpy) : Option Nat :=
  choose_mode_loop dpy.output.width dpy.output.height dpy.output.connector.modes 0

/-- Selection by the two dimensions only: the first mode with `hdisplay ≤ width` and
`vdisplay ≤ height`, the area left out. This is a reference function to compare
`choose_mode` with; it is not taken from the source. -/
def choose_mode_dims_only (dpy : drm_dpy) : Option Nat :=
  let i := dpy.output.connector.modes.findIdx
    (fun m => decide (m.hdisplay ≤ dpy.output.width) && decide (m.vdisplay ≤ dpy.output.height))
  if i < dpy.output.connector.modes.length then some i else none

/-- A session at `1920x1080` on a connector listing `640x480`, `1024x768`, `1920x1080`. -/
def dpy_full_hd : drm_dpy :=
  { ds := some { width := 1920, height := 1080, format := PIXMAN_x8r8g8b8 }
    output :=
      { connector :=
          { connector_id := 7
            encoder_id := 0
            connection := drmModeConnection.DRM_MODE_CONNECTED
            modes :=
              [{ hdisplay := 640, vdisplay := 480, vrefresh := 60 },
               { hdisplay := 1024, vdisplay := 768, vrefresh := 60 },
               { hdisplay := 1920, vdisplay := 1080, vrefresh := 60 }]
            encoders := [] }
        mode := 0
        width := 1920
        height := 1080
        crtc_id := 3
        connector_id := 7
        fb_id := 11
        has_cursor := false
        cursor_handle := 0
        cursor_w := 0
        cursor_h := 0 }
    pos_x := 0
    pos_y := 0 }

/-- A session whose buffer is `65536x65536`, so that the 32-bit product of its
dimensions wraps to zero, on a connector listing `640x480`. -/
def dpy_wrapping : drm_dpy :=
  { dpy_full_hd with
    ds := some { width := 65536, height := 65536, format := PIXMAN_x8r8g8b8 }
    output :=
      { dpy_full_hd.output with
        connector :=
          { dpy_full_hd.output.connector with
            modes := [{ hdisplay := 640, vdisplay := 480, vrefresh := 60 }] }
        width := 65536
        height := 65536 } }

/-! ## Resource binding -/

/-- What the device answers to the queries of `init_kms`: the result of
`drmSetClientCap` (negative on failure), of `drmModeGetResources` (`none` for NULL),
of `drmModeGetConnector` and of `drmModeGetEncoder` by object id (`none` for NULL). -/
structure Device where
  setClientCap : Int
  getResources : Option drmModeRes
  getConnector : Nat → Option drmModeConnector
  getEncoder : Nat → Option drmModeEncoder

/-- The mask test `possible_crtcs & (1 << i)` of `find_crtc_for_connector`, nonzero or not.
The shift is defined in C for `i < 31`. -/
def crtc_possible (possible_crtcs i : Nat) : Bool :=
  possible_crtcs &&& (1 <<< i) != 0

/-- How the inner loop of `find_crtc_for_connector` ends: by `return i`, or by running
out of CRTCs with the current value of `ret`. -/
inductive CrtcScan where
  | returned (i : Nat)
  | fell (ret : Int)
deriving DecidableEq

/-- The inner `for` loop of `find_crtc_for_connector` over the CRTC indices, entered at
index `i` with the CRTC ids from `i` on and the current `ret`. `conn_encoder_id` is
`connector->encoder_id`; `enc` holds the three fields copied from the encoder. -/
def scan_crtcs (conn_encoder_id : Nat) (enc : drmModeEncoder) :
    List Nat → Nat → Int → CrtcScan
  | [], _, ret => CrtcScan.fell ret
  | c :: rest, i, ret =>
    if !crtc_possible enc.possible_crtcs i then
      scan_crtcs conn_encoder_id enc rest (i + 1) ret
    else if conn_encoder_id = 0 ∨ (enc.encoder_id = conn_encoder_id ∧ enc.crtc_id = c) then
      CrtcScan.returned i
    else
      scan_crtcs conn_encoder_id enc rest (i + 1) (Int.ofNat i)

/-- The outer `for` loop of `find_crtc_for_connector` over the encoder ids still to
visit, with the current `ret`. -/
def scan_encoders (dev : Device) (res : drmModeRes) (conn_encoder_id : Nat) :
    List Nat → Int → Int
  | [], ret => ret
  | eid :: rest, ret =>
    match dev.getEncoder eid with
    | none => scan_encoders dev res conn_encoder_id rest ret
    | some enc =>
      match scan_crtcs conn_encoder_id enc res.crtcs 0 ret with
      | CrtcScan.returned i => Int.ofNat i
      | CrtcScan.fell ret1 => scan_encoders dev res conn_encoder_id rest ret1

/-- Model of `find_crtc_for_connector`: a CRTC index, or `-1`. -/
def find_crtc_for_connector (dev : Device) (res : drmModeRes)
    (connector : drmModeConnector) : Int :=
  scan_encoders dev res connector.encoder_id connector.encoders (-1)

/-- The read `res->crtcs[idx]`: the entry when `idx` is inside the array, the stray
word otherwise. -/
def crtcs_at (res : drmModeRes) : Int → Nat
  | Int.ofNat i => res.crtcs.getD i res.stray
  | Int.negSucc _ => res.stray

/-- The connector loop of `init_kms` over the connector ids still to visit. The
zero-initialised output is filled in at the first connected connector; `none` stands
for `output->connector` still NULL when the loop ends. -/
def bind_connector (dev : Device) (res : drmModeRes) : List Nat → Option drm_output
  | [] => none
  | cid :: rest =>
    match dev.getConnector cid with
    | none => bind_connector dev res rest
    | some connector =>
      if connector.connection = drmModeConnection.DRM_MODE_CONNECTED then
        some
          { connector := connector
            mode := 0
            width := 0
            height := 0
            crtc_id := crtcs_at res (find_crtc_for_connector dev res connector)
            connector_id := connector.connector_id
            fb_id := 0
            has_cursor := false
            cursor_handle := 0
            cursor_w := 0
            cursor_h := 0 }
      else bind_connector dev res rest

/-- Model of `init_kms`: the bound output, `none` for NULL. -/
def init_kms (dev : Device) : Option drm_output :=
  if dev.setClientCap < 0 then none
  else
    match dev.getResources with
    | none => none
    | some res => bind_connector dev res res.connectors

/-! ## Scanout -/

/-- The fields of a `QemuDmaBuf` the backend reads. -/
structure QemuDmaBuf where
  fd : Nat
  width : Nat
  height : Nat
  stride : Nat
  fourcc : Nat
  modifier : Nat
deriving DecidableEq

/-- Calls the backend makes to the device and to the console layer, with the argument
words passed. -/
inductive Cmd where
  | drmModeSetCrtc (crtc_id fb_id x y : Nat) (connectors : List Nat) (mode : Nat)
  | drmModeSetCursor (crtc_id handle w h : Nat)
  | drmModeMoveCursor (crtc_id x y : Nat)
  | dpy_gfx_update (x y w h : Nat)
  | drmModeRmFB (fb_id : Nat)
deriving DecidableEq

/-- Whether a command programs the hardware cursor. -/
def Cmd.isCursor : Cmd → Bool
  | Cmd.drmModeSetCursor _ _ _ _ => true
  | Cmd.drmModeMoveCursor _ _ _ => true
  | _ => false

/-- Model of `drm_gfx_switch`. -/
def drm_gfx_switch (dpy : drm_dpy) (new_surface : Option DisplaySurface) : drm_dpy :=
  { dpy with ds := new_surface }

/-- Model of `drm_scanout_dmabuf`. `handle` is what `drmPrimeFDToHandle` yields (`none`
when it fails), `addfb` the framebuffer id `drmModeAddFB2WithModifiers` yields (`none`
when it fails). The handle is also stored in `dmabuf->handle`, which belongs to the
caller and is not part of the session. -/
def drm_scanout_dmabuf (dpy : drm_dpy) (dmabuf : QemuDmaBuf)
    (handle : Option Nat) (addfb : Option Nat) : drm_dpy :=
  match handle with
  | none => dpy
  | some _ =>
    match addfb with
    | none => dpy
    | some fb_id =>
      { dpy with output :=
          { dpy.output with fb_id := fb_id, width := dmabuf.width, height := dmabuf.height } }

/-- Model of `drm_cursor_dmabuf`. The first argument is `none` for a NULL `dmabuf`;
otherwise it carries the buffer and what `drmPrimeFDToHandle` yields. -/
def drm_cursor_dmabuf (dpy : drm_dpy) : Option (QemuDmaBuf × Option Nat) → drm_dpy
  | none => { dpy with output := { dpy.output with has_cursor := false } }
  | some (_, none) => dpy
  | some (dmabuf, some handle) =>
    { dpy with output :=
        { dpy.output with
          cursor_handle := handle
          cursor_w := dmabuf.width
          cursor_h := dmabuf.height
          has_cursor := true } }

/-- Model of `drm_cursor_position`. -/
def drm_cursor_position (dpy : drm_dpy) (pos_x pos_y : Nat) : drm_dpy :=
  { dpy with pos_x := pos_x, pos_y := pos_y }

/-- Model of `drm_release_dmabuf`: the one call it makes. -/
def drm_release_dmabuf (dpy : drm_dpy) : List Cmd :=
  [Cmd.drmModeRmFB dpy.output.fb_id]

/-- Effect of one call on the framebuffers registered on the device: `drmModeRmFB`
removes the id it names (and fails without effect when the id is not registered); the
other calls leave the registrations alone. -/
def device_apply (live : List Nat) : Cmd → List Nat
  | Cmd.drmModeRmFB fb_id => live.filter (fun id => !decide (id = fb_id))
  | _ => live

/-- How `drm_scanout_flush` ends. -/
inductive FlushStatus where
  | presented
  | no_display_state
  | assert_failed
  | no_mode
deriving DecidableEq

/-- Outcome of `drm_scanout_flush`: how it ended, the session as it left it, and the
calls it made, in order. -/
structure FlushResult where
  status : FlushStatus
  dpy : drm_dpy
  cmds : List Cmd
deriving DecidableEq

/-- The three `assert`s of `drm_scanout_flush`. -/
def surface_matches (dpy : drm_dpy) (ds : DisplaySurface) : Bool :=
  decide (ds.width = dpy.output.width) && decide (ds.height = dpy.output.height) &&
    decide (ds.format = PIXMAN_x8r8g8b8)

/-- Model of `drm_scanout_flush`. A failed `assert` ends the process on the spot. -/
def drm_scanout_flush (dpy : drm_dpy) (x y w h : Nat) : FlushResult :=
  match dpy.ds with
  | none => { status := FlushStatus.no_display_state, dpy := dpy, cmds := [] }
  | some ds =>
    if !surface_matches dpy ds then
      { status := FlushStatus.assert_failed, dpy := dpy, cmds := [] }
    else
      match choose_mode dpy with
      | none => { status := FlushStatus.no_mode, dpy := dpy, cmds := [] }
      | some mode =>
        let out := { dpy.output with mode := mode }
        { status := FlushStatus.presented
          dpy := { dpy with output := out }
          cmds :=
            [Cmd.drmModeSetCrtc out.crtc_id out.fb_id 0 0 [out.connector_id] mode] ++
            (if out.has_cursor then
              [Cmd.drmModeSetCursor out.crtc_id out.cursor_handle out.cursor_w out.cursor_h,
               Cmd.drmModeMoveCursor out.crtc_id dpy.pos_x dpy.pos_y]
             else []) ++
            [Cmd.dpy_gfx_update x y w h] }

/-! ## The scanout driver as a transition system -/

/-- The events the console layer delivers, each with what the device answers. -/
inductive Event where
  | ImportPrimaryBuffer (dmabuf : QemuDmaBuf) (handle : Option Nat) (addfb : Option Nat)
  | ImportCursorBuffer (arg : Option (QemuDmaBuf × Option Nat))
  | SetCursorPosition (x y : Nat)
  | ReleaseBuffer
  | Commit (x y w h : Nat)
  | SurfaceChanged (new_surface : Option DisplaySurface)
deriving DecidableEq

/-- The session together with the device side it acts on: `live` lists the framebuffer
ids registered by `drmModeAddFB2WithModifiers` and not yet removed by `drmModeRmFB`;
`halted` is set once an `assert` has ended the process. -/
structure World where
  dpy : drm_dpy
  live : List Nat
  halted : Bool
deriving DecidableEq

/-- One event handled by the callbacks of `drm_ops`. -/
def step (w : World) : Event → World
  | Event.ImportPrimaryBuffer dmabuf handle addfb =>
    if w.halted then w
    else
      { w with
        dpy := drm_scanout_dmabuf w.dpy dmabuf handle addfb
        live :=
          match handle, addfb with
          | some _, some fb_id => w.live ++ [fb_id]
          | _, _ => w.live }
  | Event.ImportCursorBuffer arg =>
    if w.halted then w else { w with dpy := drm_cursor_dmabuf w.dpy arg }
  | Event.SetCursorPosition x y =>
    if w.halted then w else { w with dpy := drm_cursor_position w.dpy x y }
  | Event.ReleaseBuffer =>
    if w.halted then w
    else { w with live := (drm_release_dmabuf w.dpy).foldl device_apply w.live }
  | Event.Commit x y width height =>
    if w.halted then w
    else
      let r := drm_scanout_flush w.dpy x y width height
      { w with dpy := r.dpy, halted := decide (r.status = FlushStatus.assert_failed) }
  | Event.SurfaceChanged new_surface =>
    if w.halted then w else { w with dpy := drm_gfx_switch w.dpy new_surface }

/-- The state after a sequence of events. -/
def run (w : World) (events : List Event) : World :=
  events.foldl step w

/-- The world right after `init_kms` and `drm_init`: the bound output, no surface, the
cursor position zero, no framebuffer registered. -/
def fresh_world (output : drm_output) : World :=
  { dpy := { ds := none, output := output, pos_x := 0, pos_y := 0 }
    live := []
    halted := false }

/-! ## Example devices -/

/-- A resource table with three CRTCs. -/
def res_three : drmModeRes :=
  { crtcs := [41, 42, 43], connectors := [7], stray := 57005 }

/-- A connector whose current encoder is encoder 5, reachable through encoders 4 and 5. -/
def conn_paired : drmModeConnector :=
  { connector_id := 7
    encoder_id := 5
    connection := drmModeConnection.DRM_MODE_CONNECTED
    modes := [{ hdisplay := 640, vdisplay := 480, vrefresh := 60 }]
    encoders := [4, 5] }

/-- A device on which encoder 4 advertises all three CRTCs and drives none, and encoder 5
advertises all three and drives CRTC 42, the one at index 1. -/
def dev_paired : Device :=
  { setClientCap := 0
    getResources := some res_three
    getConnector := fun id => if id = 7 then some conn_paired else none
    getEncoder := fun id =>
      if id = 4 then some { encoder_id := 4, crtc_id := 0, possible_crtcs := 7 }
      else if id = 5 then some { encoder_id := 5, crtc_id := 42, possible_crtcs := 7 }
      else none }

/-- A connector whose current encoder, encoder 9, is not among its encoders 4, 6, 5. -/
def conn_unpaired : drmModeConnector :=
  { connector_id := 7
    encoder_id := 9
    connection := drmModeConnection.DRM_MODE_CONNECTED
    modes := [{ hdisplay := 640, vdisplay := 480, vrefresh := 60 }]
    encoders := [4, 6, 5] }

/-- A device on which encoder 4 advertises CRTC indices 0 and 1, encoder 6 cannot be
obtained, and encoder 5 advertises CRTC indices 0 and 2. -/
def dev_unpaired : Device :=
  { setClientCap := 0
    getResources := some res_three
    getConnector := fun id => if id = 7 then some conn_unpaired else none
    getEncoder := fun id =>
      if id = 4 then some { encoder_id := 4, crtc_id := 0, possible_crtcs := 3 }
      else if id = 5 then some { encoder_id := 5, crtc_id := 0, possible_crtcs := 5 }
      else none }

/-- A disconnected connector. -/
def conn_unplugged : drmModeConnector :=
  { connector_id := 8
    encoder_id := 0
    connection := drmModeConnection.DRM_MODE_DISCONNECTED
    modes := []
    encoders := [4] }

/-- A second connected connector, listed after `conn_paired`. -/
def conn_second : drmModeConnector :=
  { connector_id := 9
    encoder_id := 0
    connection := drmModeConnection.DRM_MODE_CONNECTED
    modes := [{ hdisplay := 800, vdisplay := 600, vrefresh := 60 }]
    encoders := [4] }

/-- The resource table of `dev_multi`: connector 6 cannot be obtained, 8 is
disconnected, 7 and 9 are connected. -/
def res_multi : drmModeRes :=
  { crtcs := [41, 42, 43], connectors := [6, 8, 7, 9], stray := 57005 }

/-- A device with several connectors, the encoders being those of `dev_paired`. -/
def dev_multi : Device :=
  { setClientCap := 0
    getResources := some res_multi
    getConnector := fun id =>
      if id = 8 then some conn_unplugged
      else if id = 7 then some conn_paired
      else if id = 9 then some conn_second
      else none
    getEncoder := dev_paired.getEncoder }

/-- The output `init_kms` binds on `dev_multi`: connector 7 with the CRTC at index 1,
everything else zero. -/
def output_fresh : drm_output :=
  { connector := conn_paired
    mode := 0
    width := 0
    height := 0
    crtc_id := 42
    connector_id := 7
    fb_id := 0
    has_cursor := false
    cursor_handle := 0
    cursor_w := 0
    cursor_h := 0 }

/-- A connected connector whose only encoder advertises no CRTC. -/
def conn_no_crtc : drmModeConnector :=
  { connector_id := 7
    encoder_id := 0
    connection := drmModeConnection.DRM_MODE_CONNECTED
    modes := [{ hdisplay := 640, vdisplay := 480, vrefresh := 60 }]
    encoders := [4] }

/-- A device whose one connector is connected and whose one encoder has an empty
`possible_crtcs` mask. -/
def dev_no_crtc : Device :=
  { setClientCap := 0
    getResources := some res_three
    getConnector := fun id => if id = 7 then some conn_no_crtc else none
    getEncoder := fun id =>
      if id = 4 then some { encoder_id := 4, crtc_id := 0, possible_crtcs := 0 } else none }

/-- A dma-buf of `1920x1080`. -/
def buf_full_hd : QemuDmaBuf :=
  { fd := 20, width := 1920, height := 1080, stride := 7680, fourcc := 875713112, modifier := 0 }

/-- A dma-buf of `320x200`, smaller than every mode of `dpy_full_hd`. -/
def buf_small : QemuDmaBuf :=
  { fd := 21, width := 320, height := 200, stride := 1280, fourcc := 875713112, modifier := 0 }

/-- A session whose surface is `1280x720` while its output is at `1920x1080`. -/
def dpy_mismatched : drm_dpy :=
  { dpy_full_hd with ds := some { width := 1280, height := 720, format := PIXMAN_x8r8g8b8 } }

/-- A surface of `320x200` in the required format. -/
def surface_small : DisplaySurface :=
  { width := 320, height := 200, format := PIXMAN_x8r8g8b8 }

/-- A cursor dma-buf of `64x64`. -/
def buf_cursor : QemuDmaBuf :=
  { fd := 22, width := 64, height := 64, stride := 256, fourcc := 875713089, modifier := 0 }

/-- The session `dpy_full_hd` after a cursor import (device handle 9) and a cursor move
to `(100, 50)`. -/
def dpy_with_cursor : drm_dpy :=
  drm_cursor_position (drm_cursor_dmabuf dpy_full_hd (some (buf_cursor, some 9))) 100 50

/-! ## Predicates used to state the properties -/

/-- The condition `choose_mode` tests, as a proposition: the buffer is at least as wide
and as high as the mode, and the 32-bit product `width * height` is at least the
32-bit product `hdisplay * vdisplay`. -/
def buffer_covers (dpy : drm_dpy) (m : drmModeModeInfo) : Prop :=
  dpy.output.width ≥ m.hdisplay ∧ dpy.output.height ≥ m.vdisplay ∧
    (dpy.output.width * dpy.output.height) % 2 ^ 32 ≥ (m.hdisplay * m.vdisplay) % 2 ^ 32

/-- The selection rule as the specification words it: the mode is no larger than the buffer
in either dimension and its pixel area is at least the buffer's area. -/
def area_at_least_target (dpy : drm_dpy) (m : drmModeModeInfo) : Prop :=
  m.hdisplay ≤ dpy.output.width ∧ m.vdisplay ≤ dpy.output.height ∧
    m.hdisplay * m.vdisplay ≥ dpy.output.width * dpy.output.height

/-- The selection rule the code applies, with the mode on the left: the mode is no larger
than the buffer in either dimension and its 32-bit pixel area is at most the buffer's
32-bit area. -/
def area_at_most_target (dpy : drm_dpy) (m : drmModeModeInfo) : Prop :=
  m.hdisplay ≤ dpy.output.width ∧ m.vdisplay ≤ dpy.output.height ∧
    (m.hdisplay * m.vdisplay) % 2 ^ 32 ≤ (dpy.output.width * dpy.output.height) % 2 ^ 32

/-- Pair `(j, i)` of the enumeration of `find_crtc_for_connector`: the encoder at position
`j` of the list `encs` can be obtained from the device, `i` is a CRTC index of the
resource table, and bit `i` is set in the encoder's `possible_crtcs`. -/
def compatible_pair (dev : Device) (res : drmModeRes) (encs : List Nat) (j i : Nat) : Prop :=
  ∃ (eid : Nat) (enc : drmModeEncoder), encs[j]? = some eid ∧ dev.getEncoder eid = some enc ∧
    i < res.crtcs.length ∧ enc.possible_crtcs.testBit i = true

/-- Pair `(j, i)` that is an existing pairing: a compatible pair whose encoder is the
connector's current encoder (`encoder_id` equal to `conn_encoder_id`) and is wired
to the CRTC at index `i`. -/
def exact_pair (dev : Device) (res : drmModeRes) (conn_encoder_id : Nat) (encs : List Nat)
    (j i : Nat) : Prop :=
  ∃ (eid : Nat) (enc : drmModeEncoder) (c : Nat), encs[j]? = some eid ∧
    dev.getEncoder eid = some enc ∧ res.crtcs[i]? = some c ∧
    enc.possible_crtcs.testBit i = true ∧ enc.encoder_id = conn_encoder_id ∧ enc.crtc_id = c

/-- Enumeration order of the pairs, encoders outer and CRTC indices inner: `(j1, i1)`
comes no later than `(j2, i2)`. -/
def pair_le (j1 i1 j2 i2 : Nat) : Prop :=
  j1 < j2 ∨ (j1 = j2 ∧ i1 ≤ i2)

/-- The connector `c` is the first connected one of the list `ids` of connector ids: it
is obtained from the id at position `k`, it is connected, and no connector obtained
from an earlier position is connected. -/
def first_connected (dev : Device) (ids : List Nat) (k : Nat) (c : drmModeConnector) : Prop :=
  (∃ cid : Nat, ids[k]? = some cid ∧ dev.getConnector cid = some c) ∧
    c.connection = drmModeConnection.DRM_MODE_CONNECTED ∧
    ∀ (k1 cid1 : Nat) (c1 : drmModeConnector), k1 < k → ids[k1]? = some cid1 →
      dev.getConnector cid1 = some c1 →
      c1.connection ≠ drmModeConnection.DRM_MODE_CONNECTED

/-- No connector that can be obtained from the list `ids` is connected. -/
def none_connected (dev : Device) (ids : List Nat) : Prop :=
  ∀ (k cid : Nat) (c : drmModeConnector), ids[k]? = some cid →
    dev.getConnector cid = some c → c.connection ≠ drmModeConnection.DRM_MODE_CONNECTED

/-- The surface is present and differs from the output in width or in height, or is
not in the required format. -/
def surface_mismatch (dpy : drm_dpy) : Prop :=
  ∃ ds : DisplaySurface, dpy.ds = some ds ∧
    (ds.width ≠ dpy.output.width ∨ ds.height ≠ dpy.output.height ∨
      ds.format ≠ PIXMAN_x8r8g8b8)

/-- A commit from this state does not reach the CRTC set: the surface is absent, or it
does not match the output, or no mode fits. -/
def commit_blocked (dpy : drm_dpy) : Prop :=
  dpy.ds = none ∨ surface_mismatch dpy ∨ choose_mode dpy = none

/-- The precondition of a commit holds: the surface is present, of the width and height
of the output, and in the required format. -/
def surface_ok (dpy : drm_dpy) : Prop :=
  ∃ ds : DisplaySurface, dpy.ds = some ds ∧ ds.width = dpy.output.width ∧
    ds.height = dpy.output.height ∧ ds.format = PIXMAN_x8r8g8b8

/-- Whether an event is an import of a primary buffer on which both device calls
succeed, so that a framebuffer gets registered. -/
def import_succeeds : Event → Bool
  | Event.ImportPrimaryBuffer _ (some _) (some _) => true
  | _ => false

/-- The sequencing under which the framebuffer count stays bounded: every
successful import of a primary buffer happens while no earlier successful import is
still unreleased (`pending`), a `ReleaseBuffer` clearing that state. -/
def released_before_import : Bool → List Event → Bool
  | _, [] => true
  | pending, e :: rest =>
    if import_succeeds e then !pending && released_before_import true rest
    else if e = Event.ReleaseBuffer then released_before_import false rest
    else released_before_import pending rest

/-- The state after a successful `ImportPrimaryBuffer` of `buf` (device handle `handle`,
framebuffer id `fb_id`) followed by the surface being set to `ds`; `ds` equal to the
current surface is the case of no surface change. -/
def imported (dpy : drm_dpy) (buf : QemuDmaBuf) (handle fb_id : Nat)
    (ds : Option DisplaySurface) : drm_dpy :=
  drm_gfx_switch (drm_scanout_dmabuf dpy buf (some handle) (some fb_id)) ds

/-- The invariant behind the bound on live framebuffers: at most one framebuffer is
registered, and while the process runs the registered one, if any, is the one `fb_id`
names and stems from an import not yet followed by a release. -/
def one_live (w : World) (pending : Bool) : Prop :=
  w.live.length ≤ 1 ∧
    (w.halted = false → (w.live = [] ∨ (pending = true ∧ w.live = [w.dpy.output.fb_id])))

/-- The value of the `pending` state of `released_before_import` after one event. -/
def pending_after (pending : Bool) (e : Event) : Bool :=
  if import_succeeds e then true
  else if e = Event.ReleaseBuffer then false
  else pending

/-! ## Properties of mode selection -/

theorem mode_test_iff (dpy : drm_dpy) (m : drmModeModeInfo) :
    mode_test dpy.output.width dpy.output.height m = true ↔ buffer_covers dpy m := by
  simp [mode_test, buffer_covers, mul_u32, UINT32_SIZE, and_assoc]

theorem choose_mode_loop_some (w h : Nat) (l : List drmModeModeInfo) (i0 r : Nat) :
    choose_mode_loop w h l i0 = some r ↔
      ∃ (k : Nat) (m : drmModeModeInfo), r = i0 + k ∧ l[k]? = some m ∧ mode_test w h m = true ∧
        ∀ (k1 : Nat) (m1 : drmModeModeInfo), k1 < k → l[k1]? = some m1 → mode_test w h m1 = false := by
  induction l generalizing i0 with
  | nil => simp [choose_mode_loop]
  | cons a rest ih =>
    unfold choose_mode_loop
    by_cases ha : mode_test w h a = true
    · rw [if_pos ha]
      constructor
      · intro hr
        refine ⟨0, a, ?_, by simp, ha, ?_⟩
        · simpa using (Option.some.inj hr).symm
        · intro k1 m1 hk
          omega
      · rintro ⟨k, m, hr, hk, hm, hfirst⟩
        cases k with
        | zero => simp [hr]
        | succ k =>
          have := hfirst 0 a (Nat.succ_pos k) (by simp)
          rw [ha] at this
          cases this
    · rw [if_neg ha, ih]
      have ha1 : mode_test w h a = false := by simpa using ha
      constructor
      · rintro ⟨k, m, hr, hk, hm, hfirst⟩
        refine ⟨k + 1, m, by omega, by simpa using hk, hm, ?_⟩
        intro k1 m1 hlt hk1
        cases k1 with
        | zero =>
          simp at hk1
          rw [← hk1]
          exact ha1
        | succ k1 => exact hfirst k1 m1 (by omega) (by simpa using hk1)
      · rintro ⟨k, m, hr, hk, hm, hfirst⟩
        cases k with
        | zero =>
          simp at hk
          rw [hk] at ha
          exact absurd hm ha
        | succ k =>
          refine ⟨k, m, by omega, by simpa using hk, hm, ?_⟩
          intro k1 m1 hlt hk1
          exact hfirst (k1 + 1) m1 (by omega) (by simpa using hk1)

theorem choose_mode_loop_none (w h : Nat) (l : List drmModeModeInfo) (i0 : Nat) :
    choose_mode_loop w h l i0 = none ↔
      ∀ (k : Nat) (m : drmModeModeInfo), l[k]? = some m → mode_test w h m = false := by
  induction l generalizing i0 with
  | nil => simp [choose_mode_loop]
  | cons a rest ih =>
    unfold choose_mode_loop
    by_cases ha : mode_test w h a = true
    · rw [if_pos ha]
      constructor
      · intro hr
        cases hr
      · intro hall
        have := hall 0 a (by simp)
        rw [ha] at this
        cases this
    · rw [if_neg ha, ih]
      have ha1 : mode_test w h a = false := by simpa using ha
      constructor
      · intro hall k m hk
        cases k with
        | zero =>
          simp at hk
          rw [← hk]
          exact ha1
        | succ k => exact hall k m (by simpa using hk)
      · intro hall k m hk
        exact hall (k + 1) m (by simpa using hk)

theorem choose_mode_loop_findIdx (w h : Nat) (l : List drmModeModeInfo) (i0 : Nat) :
    choose_mode_loop w h l i0 =
      if l.findIdx (mode_test w h) < l.length then some (i0 + l.findIdx (mode_test w h))
      else none := by
  induction l generalizing i0 with
  | nil => simp [choose_mode_loop]
  | cons a rest ih =>
    unfold choose_mode_loop
    rw [List.findIdx_cons]
    by_cases ha : mode_test w h a = true
    · simp [ha]
    · have ha1 : mode_test w h a = false := by simpa using ha
      simp only [ha1, Bool.false_eq_true, if_false, cond_false, List.length_cons,
        Nat.add_lt_add_iff_right]
      rw [ih]
      split
      · congr 1
        omega
      · rfl

theorem mode_test_no_wrap (w h : Nat) (hwh : w * h < 2 ^ 32) (m : drmModeModeInfo) :
    mode_test w h m = (decide (m.hdisplay ≤ w) && decide (m.vdisplay ≤ h)) := by
  unfold mode_test mul_u32 UINT32_SIZE
  by_cases h1 : m.hdisplay ≤ w
  · by_cases h2 : m.vdisplay ≤ h
    · have hle : m.hdisplay * m.vdisplay ≤ w * h := Nat.mul_le_mul h1 h2
      have hlt : m.hdisplay * m.vdisplay < 2 ^ 32 := lt_of_le_of_lt hle hwh
      rw [Nat.mod_eq_of_lt hwh, Nat.mod_eq_of_lt hlt]
      simp [h1, h2, hle]
    · simp [h1, h2]
  · simp [h1]

/-- C1: `choose_mode` returns the smallest index `i` whose mode passes the test "buffer
at least mode" (`width ≥ hdisplay`, `height ≥ vdisplay`, and the area comparison
`width * height ≥ hdisplay * vdisplay` on the 32-bit products the code computes), and
it returns NULL exactly when no index passes; an earlier passing mode is never skipped. -/
theorem choose_mode_first_match (dpy : drm_dpy) :
    (∀ i : Nat, choose_mode dpy = some i ↔
      ((∃ m : drmModeModeInfo, dpy.output.connector.modes[i]? = some m ∧ buffer_covers dpy m) ∧
        ∀ (k : Nat) (m1 : drmModeModeInfo), k < i →
          dpy.output.connector.modes[k]? = some m1 → ¬ buffer_covers dpy m1)) ∧
    (choose_mode dpy = none ↔
      ∀ (k : Nat) (m : drmModeModeInfo),
        dpy.output.connector.modes[k]? = some m → ¬ buffer_covers dpy m) := by
  constructor
  · intro i
    unfold choose_mode
    rw [choose_mode_loop_some]
    constructor
    · rintro ⟨k, m, hr, hk, hm, hfirst⟩
      have hik : i = k := by omega
      subst hik
      refine ⟨⟨m, hk, (mode_test_iff dpy m).1 hm⟩, ?_⟩
      intro k1 m1 hlt hk1 hcov
      have := hfirst k1 m1 hlt hk1
      rw [(mode_test_iff dpy m1).2 hcov] at this
      cases this
    · rintro ⟨⟨m, hk, hcov⟩, hfirst⟩
      refine ⟨i, m, by omega, hk, (mode_test_iff dpy m).2 hcov, ?_⟩
      intro k1 m1 hlt hk1
      cases hb : mode_test dpy.output.width dpy.output.height m1 with
      | false => rfl
      | true => exact absurd ((mode_test_iff dpy m1).1 hb) (hfirst k1 m1 hlt hk1)
  · unfold choose_mode
    rw [choose_mode_loop_none]
    constructor
    · intro hall k m hk hcov
      have := hall k m hk
      rw [(mode_test_iff dpy m).2 hcov] at this
      cases this
    · intro hall k m hk
      cases hb : mode_test dpy.output.width dpy.output.height m with
      | false => rfl
      | true => exact absurd ((mode_test_iff dpy m).1 hb) (hall k m hk)

/-- C1, the worked example: with a `1920x1080` buffer and the modes `640x480`,
`1024x768`, `1920x1080`, the mode returned is the one at index 0, `640x480`. -/
theorem choose_mode_first_match_witness :
    choose_mode dpy_full_hd = some 0 ∧
      dpy_full_hd.output.connector.modes[0]? =
        some { hdisplay := 640, vdisplay := 480, vrefresh := 60 } :=
  ⟨((choose_mode_first_match dpy_full_hd).1 0).2
      ⟨⟨{ hdisplay := 640, vdisplay := 480, vrefresh := 60 }, rfl, by
          unfold buffer_covers; decide⟩,
        fun k _ hk => absurd hk (Nat.not_lt_zero k)⟩,
    rfl⟩

/-- C2, refuted as stated: with a `1920x1080` buffer and the modes `640x480`, `1024x768`,
`1920x1080`, `choose_mode` returns index 0, and the mode there (`640x480`) has a pixel
area below the buffer's, so it is not a mode whose area is at least the target's. -/
theorem choose_mode_area_at_least_counterexample :
    choose_mode dpy_full_hd = some 0 ∧
      ¬ ∃ m : drmModeModeInfo,
        dpy_full_hd.output.connector.modes[0]? = some m ∧ area_at_least_target dpy_full_hd m := by
  refine ⟨by decide, ?_⟩
  rintro ⟨m, hm, -, -, harea⟩
  have hm1 : m = { hdisplay := 640, vdisplay := 480, vrefresh := 60 } :=
    (Option.some.inj hm).symm
  subst hm1
  revert harea
  decide

/-- C2, amended: whenever `choose_mode` returns a mode, it is the first mode in list
order whose `hdisplay ≤ width`, `vdisplay ≤ height` and whose 32-bit pixel area
`hdisplay * vdisplay` is at most the buffer's 32-bit area `width * height`. -/
theorem choose_mode_area_at_most (dpy : drm_dpy) (i : Nat) (h : choose_mode dpy = some i) :
    (∃ m : drmModeModeInfo,
      dpy.output.connector.modes[i]? = some m ∧ area_at_most_target dpy m) ∧
    ∀ (k : Nat) (m1 : drmModeModeInfo), k < i →
      dpy.output.connector.modes[k]? = some m1 → ¬ area_at_most_target dpy m1 := by
  unfold choose_mode at h
  rw [choose_mode_loop_some] at h
  obtain ⟨k, m, hr, hk, hm, hfirst⟩ := h
  have hik : i = k := by omega
  subst hik
  have key : ∀ m2 : drmModeModeInfo,
      mode_test dpy.output.width dpy.output.height m2 = true ↔ area_at_most_target dpy m2 := by
    intro m2
    simp [mode_test, area_at_most_target, mul_u32, UINT32_SIZE, and_assoc]
  refine ⟨⟨m, hk, (key m).1 hm⟩, ?_⟩
  intro k1 m1 hlt hk1 hcov
  have := hfirst k1 m1 hlt hk1
  rw [(key m1).2 hcov] at this
  cases this

/-- C2, amended, at the worked example. -/
theorem choose_mode_area_at_most_witness :
    choose_mode dpy_full_hd = some 0 ∧
      ∃ m : drmModeModeInfo,
        dpy_full_hd.output.connector.modes[0]? = some m ∧ area_at_most_target dpy_full_hd m :=
  ⟨by decide, (choose_mode_area_at_most dpy_full_hd 0 (by decide)).1⟩

/-- C10: when `width * height` does not wrap modulo `2 ^ 32`, `choose_mode` returns what
the selection by the two dimensions alone returns; and for the `65536x65536` buffer,
whose 32-bit area wraps to zero, the two differ on the mode list `[640x480]`:
`choose_mode` rejects the mode although it fits in both dimensions. -/
theorem choose_mode_area_test_redundant_iff_no_wrap :
    (∀ dpy : drm_dpy, dpy.output.width * dpy.output.height < 2 ^ 32 →
      choose_mode dpy = choose_mode_dims_only dpy) ∧
    (dpy_wrapping.output.width < 2 ^ 32 ∧ dpy_wrapping.output.height < 2 ^ 32 ∧
      2 ^ 32 ≤ dpy_wrapping.output.width * dpy_wrapping.output.height ∧
      choose_mode dpy_wrapping = none ∧ choose_mode_dims_only dpy_wrapping = some 0) := by
  constructor
  · intro dpy hwh
    unfold choose_mode choose_mode_dims_only
    rw [choose_mode_loop_findIdx]
    have hfun : mode_test dpy.output.width dpy.output.height =
        fun m => decide (m.hdisplay ≤ dpy.output.width) && decide (m.vdisplay ≤ dpy.output.height) :=
      funext (mode_test_no_wrap _ _ hwh)
    rw [hfun]
    simp
  · decide

/-- C10 at the worked example: the `1920x1080` buffer does not wrap, and both selections
return index 0. -/
theorem choose_mode_area_test_redundant_witness :
    dpy_full_hd.output.width * dpy_full_hd.output.height < 2 ^ 32 ∧
      choose_mode dpy_full_hd = choose_mode_dims_only dpy_full_hd :=
  ⟨by decide, choose_mode_area_test_redundant_iff_no_wrap.1 dpy_full_hd (by decide)⟩

/-! ## Properties of CRTC matching -/

theorem crtc_possible_eq_testBit (mask i : Nat) : crtc_possible mask i = mask.testBit i := by
  unfold crtc_possible
  rw [Nat.one_shiftLeft, Nat.and_two_pow]
  cases h : mask.testBit i
  · simp
  · have : 2 ^ i ≠ 0 := by positivity
    simp [this]

/-- What the inner loop of `find_crtc_for_connector` does for a connector that has a
current encoder: it returns at the first index whose bit is set and whose CRTC is the
one the current encoder drives; otherwise it falls through with the last index whose
bit is set, or with `ret` untouched when no bit is set. -/
theorem scan_crtcs_spec (cid : Nat) (hcid : cid ≠ 0) (enc : drmModeEncoder)
    (l : List Nat) (i0 : Nat) (ret : Int) :
    (∃ (k c : Nat), scan_crtcs cid enc l i0 ret = CrtcScan.returned (i0 + k) ∧
        l[k]? = some c ∧ enc.possible_crtcs.testBit (i0 + k) = true ∧
        enc.encoder_id = cid ∧ enc.crtc_id = c ∧
        ∀ (k1 c1 : Nat), k1 < k → l[k1]? = some c1 →
          ¬ (enc.possible_crtcs.testBit (i0 + k1) = true ∧
              enc.encoder_id = cid ∧ enc.crtc_id = c1)) ∨
    ((∀ (k c : Nat), l[k]? = some c →
        ¬ (enc.possible_crtcs.testBit (i0 + k) = true ∧
            enc.encoder_id = cid ∧ enc.crtc_id = c)) ∧
      ((scan_crtcs cid enc l i0 ret = CrtcScan.fell ret ∧
          ∀ k : Nat, k < l.length → enc.possible_crtcs.testBit (i0 + k) = false) ∨
        (∃ k : Nat, k < l.length ∧
          scan_crtcs cid enc l i0 ret = CrtcScan.fell (Int.ofNat (i0 + k)) ∧
          enc.possible_crtcs.testBit (i0 + k) = true ∧
          ∀ k1 : Nat, k < k1 → k1 < l.length →
            enc.possible_crtcs.testBit (i0 + k1) = false))) := by
  induction l generalizing i0 ret with
  | nil =>
    right
    refine ⟨by simp, Or.inl ⟨rfl, by simp⟩⟩
  | cons a rest ih =>
    unfold scan_crtcs
    rw [crtc_possible_eq_testBit]
    have shift : ∀ k : Nat, i0 + 1 + k = i0 + (k + 1) := fun k => by omega
    cases hbit : enc.possible_crtcs.testBit i0 with
    | false =>
      simp only [Bool.not_false, if_true]
      rcases ih (i0 + 1) ret with ⟨k, c, hs, hk, hb, he, hc, hfirst⟩ | ⟨hno, hlast⟩
      · left
        refine ⟨k + 1, c, by rw [hs, shift], by simpa using hk, by rw [← shift]; exact hb,
          he, hc, ?_⟩
        intro k1 c1 hlt hk1
        cases k1 with
        | zero => simp [hbit]
        | succ k1 =>
          rw [← shift]
          exact hfirst k1 c1 (by omega) (by simpa using hk1)
      · right
        refine ⟨?_, ?_⟩
        · intro k c hk
          cases k with
          | zero => simp [hbit]
          | succ k =>
            rw [← shift]
            exact hno k c (by simpa using hk)
        · rcases hlast with ⟨hs, hnone⟩ | ⟨k, hklt, hs, hb, hafter⟩
          · left
            refine ⟨hs, ?_⟩
            intro k hk
            cases k with
            | zero => simpa using hbit
            | succ k =>
              rw [← shift]
              exact hnone k (by simpa using hk)
          · right
            refine ⟨k + 1, by simpa using hklt, by rw [hs, shift],
              by rw [← shift]; exact hb, ?_⟩
            intro k1 hlt hk1
            cases k1 with
            | zero => omega
            | succ k1 =>
              rw [← shift]
              exact hafter k1 (by omega) (by simpa using hk1)
    | true =>
      simp only [Bool.not_true, Bool.false_eq_true, if_false]
      by_cases hm : enc.encoder_id = cid ∧ enc.crtc_id = a
      · left
        rw [if_pos (Or.inr hm)]
        refine ⟨0, a, rfl, by simp, by simpa using hbit, hm.1, hm.2, ?_⟩
        intro k1 c1 hlt
        omega
      · have hcond : ¬ (cid = 0 ∨ (enc.encoder_id = cid ∧ enc.crtc_id = a)) := by
          rintro (h0 | h1)
          · exact hcid h0
          · exact hm h1
        rw [if_neg hcond]
        rcases ih (i0 + 1) (Int.ofNat i0) with ⟨k, c, hs, hk, hb, he, hc, hfirst⟩ | ⟨hno, hlast⟩
        · left
          refine ⟨k + 1, c, by rw [hs, shift], by simpa using hk, by rw [← shift]; exact hb,
            he, hc, ?_⟩
          intro k1 c1 hlt hk1
          cases k1 with
          | zero =>
            simp at hk1
            subst hk1
            rintro ⟨-, h2, h3⟩
            exact hm ⟨h2, h3⟩
          | succ k1 =>
            rw [← shift]
            exact hfirst k1 c1 (by omega) (by simpa using hk1)
        · right
          refine ⟨?_, ?_⟩
          · intro k c hk
            cases k with
            | zero =>
              simp at hk
              subst hk
              rintro ⟨-, h2, h3⟩
              exact hm ⟨h2, h3⟩
            | succ k =>
              rw [← shift]
              exact hno k c (by simpa using hk)
          · right
            rcases hlast with ⟨hs, hnone⟩ | ⟨k, hklt, hs, hb, hafter⟩
            · refine ⟨0, by simp, by simpa using hs, by simpa using hbit, ?_⟩
              intro k1 hlt hk1
              cases k1 with
              | zero => omega
              | succ k1 =>
                rw [← shift]
                exact hnone k1 (by simpa using hk1)
            · refine ⟨k + 1, by simpa using hklt, by rw [hs, shift],
                by rw [← shift]; exact hb, ?_⟩
              intro k1 hlt hk1
              cases k1 with
              | zero => omega
              | succ k1 =>
                rw [← shift]
                exact hafter k1 (by omega) (by simpa using hk1)

theorem compatible_pair_cons_succ (dev : Device) (res : drmModeRes) (eid : Nat)
    (rest : List Nat) (j i : Nat) :
    compatible_pair dev res (eid :: rest) (j + 1) i ↔ compatible_pair dev res rest j i := by
  simp [compatible_pair]

theorem compatible_pair_cons_zero (dev : Device) (res : drmModeRes) (eid : Nat)
    (rest : List Nat) (i : Nat) :
    compatible_pair dev res (eid :: rest) 0 i ↔
      ∃ enc : drmModeEncoder, dev.getEncoder eid = some enc ∧
        i < res.crtcs.length ∧ enc.possible_crtcs.testBit i = true := by
  simp [compatible_pair]

theorem exact_pair_cons_succ (dev : Device) (res : drmModeRes) (cid eid : Nat)
    (rest : List Nat) (j i : Nat) :
    exact_pair dev res cid (eid :: rest) (j + 1) i ↔ exact_pair dev res cid rest j i := by
  simp [exact_pair]

theorem exact_pair_cons_zero (dev : Device) (res : drmModeRes) (cid eid : Nat)
    (rest : List Nat) (i : Nat) :
    exact_pair dev res cid (eid :: rest) 0 i ↔
      ∃ (enc : drmModeEncoder) (c : Nat), dev.getEncoder eid = some enc ∧
        res.crtcs[i]? = some c ∧ enc.possible_crtcs.testBit i = true ∧
        enc.encoder_id = cid ∧ enc.crtc_id = c := by
  simp [exact_pair]

/-- What the two nested loops of `find_crtc_for_connector` compute for a connector that
has a current encoder: the CRTC index of the first existing pairing when there is one;
otherwise the CRTC index of the last compatible pair, or `ret` untouched when there is
no compatible pair. -/
theorem scan_encoders_spec (dev : Device) (res : drmModeRes) (cid : Nat) (hcid : cid ≠ 0)
    (encs : List Nat) (ret : Int) :
    (∃ (j i : Nat), scan_encoders dev res cid encs ret = (i : Int) ∧
        exact_pair dev res cid encs j i ∧
        ∀ (j1 i1 : Nat), exact_pair dev res cid encs j1 i1 → pair_le j i j1 i1) ∨
    ((∀ (j i : Nat), ¬ exact_pair dev res cid encs j i) ∧
      ((scan_encoders dev res cid encs ret = ret ∧
          ∀ (j i : Nat), ¬ compatible_pair dev res encs j i) ∨
        (∃ (j i : Nat), scan_encoders dev res cid encs ret = (i : Int) ∧
          compatible_pair dev res encs j i ∧
          ∀ (j1 i1 : Nat), compatible_pair dev res encs j1 i1 → pair_le j1 i1 j i))) := by
  induction encs generalizing ret with
  | nil =>
    right
    refine ⟨?_, Or.inl ⟨rfl, ?_⟩⟩
    · intro j i
      simp [exact_pair]
    · intro j i
      simp [compatible_pair]
  | cons eid rest ih =>
    unfold scan_encoders
    cases henc : dev.getEncoder eid with
    | none =>
      simp only
      have hex0 : ∀ i : Nat, ¬ exact_pair dev res cid (eid :: rest) 0 i := by
        intro i
        rw [exact_pair_cons_zero]
        simp [henc]
      have hco0 : ∀ i : Nat, ¬ compatible_pair dev res (eid :: rest) 0 i := by
        intro i
        rw [compatible_pair_cons_zero]
        simp [henc]
      rcases ih ret with ⟨j, i, hs, hex, hfirst⟩ | ⟨hno, hrest⟩
      · left
        refine ⟨j + 1, i, hs, (exact_pair_cons_succ ..).2 hex, ?_⟩
        intro j1 i1 h1
        cases j1 with
        | zero => exact absurd h1 (hex0 i1)
        | succ j1 =>
          rcases hfirst j1 i1 ((exact_pair_cons_succ ..).1 h1) with hlt | ⟨heq, hle⟩
          · exact Or.inl (by omega)
          · exact Or.inr ⟨by omega, hle⟩
      · right
        refine ⟨?_, ?_⟩
        · intro j i h1
          cases j with
          | zero => exact hex0 i h1
          | succ j => exact hno j i ((exact_pair_cons_succ ..).1 h1)
        · rcases hrest with ⟨hs, hnone⟩ | ⟨j, i, hs, hco, hlast⟩
          · left
            refine ⟨hs, ?_⟩
            intro j i h1
            cases j with
            | zero => exact hco0 i h1
            | succ j => exact hnone j i ((compatible_pair_cons_succ ..).1 h1)
          · right
            refine ⟨j + 1, i, hs, (compatible_pair_cons_succ ..).2 hco, ?_⟩
            intro j1 i1 h1
            cases j1 with
            | zero => exact Or.inl (by omega)
            | succ j1 =>
              rcases hlast j1 i1 ((compatible_pair_cons_succ ..).1 h1) with hlt | ⟨heq, hle⟩
              · exact Or.inl (by omega)
              · exact Or.inr ⟨by omega, hle⟩
    | some enc =>
      simp only
      have hex0 : ∀ i : Nat, exact_pair dev res cid (eid :: rest) 0 i ↔
          ∃ c : Nat, res.crtcs[i]? = some c ∧ enc.possible_crtcs.testBit i = true ∧
            enc.encoder_id = cid ∧ enc.crtc_id = c := by
        intro i
        rw [exact_pair_cons_zero]
        simp [henc]
      have hco0 : ∀ i : Nat, compatible_pair dev res (eid :: rest) 0 i ↔
          (i < res.crtcs.length ∧ enc.possible_crtcs.testBit i = true) := by
        intro i
        rw [compatible_pair_cons_zero]
        simp [henc]
      rcases scan_crtcs_spec cid hcid enc res.crtcs 0 ret with
        ⟨k, c, hs, hk, hb, he, hc, hfirst⟩ | ⟨hno, hlast⟩
      · left
        rw [hs]
        simp only [Nat.zero_add] at hb hfirst ⊢
        refine ⟨0, k, rfl, (hex0 k).2 ⟨c, hk, hb, he, hc⟩, ?_⟩
        intro j1 i1 h1
        cases j1 with
        | zero =>
          right
          refine ⟨rfl, ?_⟩
          obtain ⟨c1, hc1, hb1, he1, hcc1⟩ := (hex0 i1).1 h1
          by_contra hlt
          exact hfirst i1 c1 (by omega) hc1 ⟨by simpa using hb1, he1, hcc1⟩
        | succ j1 => exact Or.inl (by omega)
      · have hnex0 : ∀ i : Nat, ¬ exact_pair dev res cid (eid :: rest) 0 i := by
          intro i h1
          obtain ⟨c1, hc1, hb1, he1, hcc1⟩ := (hex0 i).1 h1
          exact hno i c1 hc1 ⟨by simpa using hb1, he1, hcc1⟩
        have step : ∀ ret1 : Int,
            scan_crtcs cid enc res.crtcs 0 ret = CrtcScan.fell ret1 →
            (match scan_crtcs cid enc res.crtcs 0 ret with
              | CrtcScan.returned i => Int.ofNat i
              | CrtcScan.fell ret1 => scan_encoders dev res cid rest ret1) =
              scan_encoders dev res cid rest ret1 := by
          intro ret1 h1
          rw [h1]
        rcases hlast with ⟨hs, hnone⟩ | ⟨k, hklt, hs, hb, hafter⟩
        · rw [step ret hs]
          rcases ih ret with ⟨j, i, hs2, hex, hfirst⟩ | ⟨hno2, hrest⟩
          · left
            refine ⟨j + 1, i, hs2, (exact_pair_cons_succ ..).2 hex, ?_⟩
            intro j1 i1 h1
            cases j1 with
            | zero => exact absurd h1 (hnex0 i1)
            | succ j1 =>
              rcases hfirst j1 i1 ((exact_pair_cons_succ ..).1 h1) with hlt | ⟨heq, hle⟩
              · exact Or.inl (by omega)
              · exact Or.inr ⟨by omega, hle⟩
          · right
            refine ⟨?_, ?_⟩
            · intro j i h1
              cases j with
              | zero => exact hnex0 i h1
              | succ j => exact hno2 j i ((exact_pair_cons_succ ..).1 h1)
            · rcases hrest with ⟨hs2, hnone2⟩ | ⟨j, i, hs2, hco, hlast2⟩
              · left
                refine ⟨hs2, ?_⟩
                intro j i h1
                cases j with
                | zero =>
                  obtain ⟨hi, hbi⟩ := (hco0 i).1 h1
                  have := hnone i hi
                  simp only [Nat.zero_add] at this
                  rw [this] at hbi
                  cases hbi
                | succ j => exact hnone2 j i ((compatible_pair_cons_succ ..).1 h1)
              · right
                refine ⟨j + 1, i, hs2, (compatible_pair_cons_succ ..).2 hco, ?_⟩
                intro j1 i1 h1
                cases j1 with
                | zero => exact Or.inl (by omega)
                | succ j1 =>
                  rcases hlast2 j1 i1 ((compatible_pair_cons_succ ..).1 h1) with
                    hlt | ⟨heq, hle⟩
                  · exact Or.inl (by omega)
                  · exact Or.inr ⟨by omega, hle⟩
        · rw [step _ hs]
          simp only [Nat.zero_add] at hb hafter ⊢
          rcases ih (Int.ofNat k) with ⟨j, i, hs2, hex, hfirst⟩ | ⟨hno2, hrest⟩
          · left
            refine ⟨j + 1, i, hs2, (exact_pair_cons_succ ..).2 hex, ?_⟩
            intro j1 i1 h1
            cases j1 with
            | zero => exact absurd h1 (hnex0 i1)
            | succ j1 =>
              rcases hfirst j1 i1 ((exact_pair_cons_succ ..).1 h1) with hlt | ⟨heq, hle⟩
              · exact Or.inl (by omega)
              · exact Or.inr ⟨by omega, hle⟩
          · right
            refine ⟨?_, Or.inr ?_⟩
            · intro j i h1
              cases j with
              | zero => exact hnex0 i h1
              | succ j => exact hno2 j i ((exact_pair_cons_succ ..).1 h1)
            · rcases hrest with ⟨hs2, hnone2⟩ | ⟨j, i, hs2, hco, hlast2⟩
              · refine ⟨0, k, by rw [hs2]; rfl, (hco0 k).2 ⟨hklt, hb⟩, ?_⟩
                intro j1 i1 h1
                cases j1 with
                | zero =>
                  right
                  refine ⟨rfl, ?_⟩
                  obtain ⟨hi, hbi⟩ := (hco0 i1).1 h1
                  by_contra hgt
                  have := hafter i1 (by omega) hi
                  rw [this] at hbi
                  cases hbi
                | succ j1 => exact absurd ((compatible_pair_cons_succ ..).1 h1) (hnone2 j1 i1)
              · refine ⟨j + 1, i, hs2, (compatible_pair_cons_succ ..).2 hco, ?_⟩
                intro j1 i1 h1
                cases j1 with
                | zero => exact Or.inl (by omega)
                | succ j1 =>
                  rcases hlast2 j1 i1 ((compatible_pair_cons_succ ..).1 h1) with
                    hlt | ⟨heq, hle⟩
                  · exact Or.inl (by omega)
                  · exact Or.inr ⟨by omega, hle⟩

/-- C4: for a resource table with fewer than 32 CRTCs and a connector that has a current
encoder (`encoder_id ≠ 0`), if some pair (obtainable encoder, CRTC index) is an existing
pairing, then `find_crtc_for_connector` returns the CRTC index of the first such pair in
enumeration order, whatever other compatible pairs there are. -/
theorem find_crtc_prefers_existing_pairing (dev : Device) (res : drmModeRes)
    (connector : drmModeConnector) (_hcount : res.crtcs.length < 32)
    (hcur : connector.encoder_id ≠ 0)
    (hex : ∃ (j i : Nat), exact_pair dev res connector.encoder_id connector.encoders j i) :
    ∃ (j i : Nat), exact_pair dev res connector.encoder_id connector.encoders j i ∧
      (∀ (j1 i1 : Nat), exact_pair dev res connector.encoder_id connector.encoders j1 i1 →
        pair_le j i j1 i1) ∧
      find_crtc_for_connector dev res connector = (i : Int) := by
  unfold find_crtc_for_connector
  rcases scan_encoders_spec dev res connector.encoder_id hcur connector.encoders (-1) with
    ⟨j, i, hs, hpair, hfirst⟩ | ⟨hno, -⟩
  · exact ⟨j, i, hpair, hfirst, hs⟩
  · obtain ⟨j, i, hji⟩ := hex
    exact absurd hji (hno j i)

/-- C4 on an example: encoder 4 advertises every CRTC before encoder 5 is visited, and
encoder 5 advertises CRTC index 0 before its own CRTC at index 1; the index returned is 1. -/
theorem find_crtc_prefers_existing_pairing_witness :
    res_three.crtcs.length < 32 ∧ conn_paired.encoder_id ≠ 0 ∧
      find_crtc_for_connector dev_paired res_three conn_paired = 1 ∧
      ∃ (j i : Nat), exact_pair dev_paired res_three conn_paired.encoder_id
          conn_paired.encoders j i ∧
        (∀ (j1 i1 : Nat), exact_pair dev_paired res_three conn_paired.encoder_id
          conn_paired.encoders j1 i1 → pair_le j i j1 i1) ∧
        find_crtc_for_connector dev_paired res_three conn_paired = (i : Int) :=
  ⟨by decide, by decide, by decide,
    find_crtc_prefers_existing_pairing dev_paired res_three conn_paired (by decide) (by decide)
      ⟨1, 1, 5, { encoder_id := 5, crtc_id := 42, possible_crtcs := 7 }, 42,
        rfl, rfl, rfl, by decide, rfl, rfl⟩⟩

/-- C5: for a resource table with fewer than 32 CRTCs and a connector that has a current
encoder (`encoder_id ≠ 0`) but no existing pairing among the compatible pairs,
`find_crtc_for_connector` returns the CRTC index of the last compatible pair in
enumeration order (encoders outer, CRTC indices inner) when there is a compatible pair,
and it returns `-1` exactly when there is none. -/
theorem find_crtc_last_compatible_wins (dev : Device) (res : drmModeRes)
    (connector : drmModeConnector) (_hcount : res.crtcs.length < 32)
    (hcur : connector.encoder_id ≠ 0)
    (hno : ∀ (j i : Nat), ¬ exact_pair dev res connector.encoder_id connector.encoders j i) :
    ((∃ (j i : Nat), compatible_pair dev res connector.encoders j i) →
      ∃ (j i : Nat), compatible_pair dev res connector.encoders j i ∧
        (∀ (j1 i1 : Nat), compatible_pair dev res connector.encoders j1 i1 →
          pair_le j1 i1 j i) ∧
        find_crtc_for_connector dev res connector = (i : Int)) ∧
    (find_crtc_for_connector dev res connector = -1 ↔
      ∀ (j i : Nat), ¬ compatible_pair dev res connector.encoders j i) := by
  unfold find_crtc_for_connector
  rcases scan_encoders_spec dev res connector.encoder_id hcur connector.encoders (-1) with
    ⟨j, i, -, hpair, -⟩ | ⟨-, ⟨hs, hnone⟩ | ⟨j, i, hs, hpair, hlast⟩⟩
  · exact absurd hpair (hno j i)
  · refine ⟨?_, ⟨fun _ => hnone, fun _ => hs⟩⟩
    rintro ⟨j, i, hji⟩
    exact absurd hji (hnone j i)
  · refine ⟨fun _ => ⟨j, i, hpair, hlast, hs⟩, ?_⟩
    rw [hs]
    constructor
    · intro h
      omega
    · intro h
      exact absurd hpair (h j i)

theorem dev_unpaired_no_exact (j i : Nat) :
    ¬ exact_pair dev_unpaired res_three conn_unpaired.encoder_id conn_unpaired.encoders j i := by
  rintro ⟨eid, enc, c, -, hg, -, -, he, -⟩
  have h9 : enc.encoder_id = 9 := he
  unfold dev_unpaired at hg
  simp only at hg
  split at hg
  · cases hg
    cases h9
  · split at hg
    · cases hg
      cases h9
    · cases hg

/-- C5 on an example: encoder 4 advertises indices 0 and 1, encoder 6 cannot be obtained,
encoder 5 advertises indices 0 and 2; the index returned is 2, the highest bit of the
last encoder. -/
theorem find_crtc_last_compatible_wins_witness :
    res_three.crtcs.length < 32 ∧ conn_unpaired.encoder_id ≠ 0 ∧
      find_crtc_for_connector dev_unpaired res_three conn_unpaired = 2 ∧
      ((∃ (j i : Nat), compatible_pair dev_unpaired res_three conn_unpaired.encoders j i) →
        ∃ (j i : Nat), compatible_pair dev_unpaired res_three conn_unpaired.encoders j i ∧
          (∀ (j1 i1 : Nat), compatible_pair dev_unpaired res_three conn_unpaired.encoders j1 i1 →
            pair_le j1 i1 j i) ∧
          find_crtc_for_connector dev_unpaired res_three conn_unpaired = (i : Int)) :=
  ⟨by decide, by decide, by decide,
    (find_crtc_last_compatible_wins dev_unpaired res_three conn_unpaired (by decide)
      (by decide) dev_unpaired_no_exact).1⟩

/-! ## Properties of resource binding -/

/-- What the connector loop of `init_kms` computes: the output bound to the first
connected connector, or nothing when no obtainable connector is connected. -/
theorem bind_connector_spec (dev : Device) (res : drmModeRes) (ids : List Nat) :
    (∃ (k : Nat) (c : drmModeConnector) (out : drm_output),
        bind_connector dev res ids = some out ∧ first_connected dev ids k c ∧
        out.connector = c ∧ out.connector_id = c.connector_id) ∨
    (bind_connector dev res ids = none ∧ none_connected dev ids) := by
  induction ids with
  | nil =>
    right
    refine ⟨rfl, ?_⟩
    intro k cid c hk
    simp at hk
  | cons cid rest ih =>
    unfold bind_connector
    cases hget : dev.getConnector cid with
    | none =>
      simp only
      rcases ih with ⟨k, c, out, hb, ⟨⟨cid0, hk, hc⟩, hconn, hfirst⟩, ho1, ho2⟩ | ⟨hb, hnone⟩
      · left
        refine ⟨k + 1, c, out, hb, ⟨⟨cid0, by simpa using hk, hc⟩, hconn, ?_⟩, ho1, ho2⟩
        intro k1 cid1 c1 hlt hk1 hc1
        cases k1 with
        | zero =>
          simp at hk1
          subst hk1
          rw [hget] at hc1
          cases hc1
        | succ k1 => exact hfirst k1 cid1 c1 (by omega) (by simpa using hk1) hc1
      · right
        refine ⟨hb, ?_⟩
        intro k1 cid1 c1 hk1 hc1
        cases k1 with
        | zero =>
          simp at hk1
          subst hk1
          rw [hget] at hc1
          cases hc1
        | succ k1 => exact hnone k1 cid1 c1 (by simpa using hk1) hc1
    | some connector =>
      simp only
      by_cases hconn : connector.connection = drmModeConnection.DRM_MODE_CONNECTED
      · left
        rw [if_pos hconn]
        refine ⟨0, connector, _, rfl, ⟨⟨cid, by simp, hget⟩, hconn, ?_⟩, rfl, rfl⟩
        intro k1 cid1 c1 hlt
        omega
      · rw [if_neg hconn]
        rcases ih with ⟨k, c, out, hb, ⟨⟨cid0, hk, hc⟩, hconn0, hfirst⟩, ho1, ho2⟩ | ⟨hb, hnone⟩
        · left
          refine ⟨k + 1, c, out, hb, ⟨⟨cid0, by simpa using hk, hc⟩, hconn0, ?_⟩, ho1, ho2⟩
          intro k1 cid1 c1 hlt hk1 hc1
          cases k1 with
          | zero =>
            simp at hk1
            subst hk1
            rw [hget] at hc1
            cases hc1
            exact hconn
          | succ k1 => exact hfirst k1 cid1 c1 (by omega) (by simpa using hk1) hc1
        · right
          refine ⟨hb, ?_⟩
          intro k1 cid1 c1 hk1 hc1
          cases k1 with
          | zero =>
            simp at hk1
            subst hk1
            rw [hget] at hc1
            cases hc1
            exact hconn
          | succ k1 => exact hnone k1 cid1 c1 (by simpa using hk1) hc1

theorem first_connected_unique (dev : Device) (ids : List Nat) (k1 k2 : Nat)
    (c1 c2 : drmModeConnector) (h1 : first_connected dev ids k1 c1)
    (h2 : first_connected dev ids k2 c2) : k1 = k2 ∧ c1 = c2 := by
  obtain ⟨⟨cid1, hk1, hc1⟩, hconn1, hfirst1⟩ := h1
  obtain ⟨⟨cid2, hk2, hc2⟩, hconn2, hfirst2⟩ := h2
  have hk : k1 = k2 := by
    rcases Nat.lt_trichotomy k1 k2 with hlt | heq | hgt
    · exact absurd hconn1 (hfirst2 k1 cid1 c1 hlt hk1 hc1)
    · exact heq
    · exact absurd hconn2 (hfirst1 k2 cid2 c2 hgt hk2 hc2)
  subst hk
  rw [hk1] at hk2
  cases hk2
  rw [hc1] at hc2
  cases hc2
  exact ⟨rfl, rfl⟩

/-- C3: once the capability and the resource queries have succeeded, if the connector
list holds an obtainable connected connector then `init_kms` returns an output whose
`connector` and `connector_id` are those of the first connected connector in
enumeration order (in particular of a connected one); and if no obtainable connector is
connected, `init_kms` returns NULL. -/
theorem init_kms_binds_first_connected (dev : Device) (res : drmModeRes)
    (hcap : 0 ≤ dev.setClientCap) (hres : dev.getResources = some res) :
    (∀ (k : Nat) (c : drmModeConnector), first_connected dev res.connectors k c →
      ∃ out : drm_output, init_kms dev = some out ∧ out.connector = c ∧
        out.connector_id = c.connector_id ∧
        out.connector.connection = drmModeConnection.DRM_MODE_CONNECTED) ∧
    ((∃ (k cid : Nat) (c : drmModeConnector), res.connectors[k]? = some cid ∧
        dev.getConnector cid = some c ∧
        c.connection = drmModeConnection.DRM_MODE_CONNECTED) →
      ∃ (k : Nat) (c : drmModeConnector), first_connected dev res.connectors k c) ∧
    (none_connected dev res.connectors → init_kms dev = none) := by
  have hinit : init_kms dev = bind_connector dev res res.connectors := by
    unfold init_kms
    rw [if_neg (by omega), hres]
  rw [hinit]
  rcases bind_connector_spec dev res res.connectors with
    ⟨k, c, out, hb, hfc, ho1, ho2⟩ | ⟨hb, hnone⟩
  · refine ⟨?_, fun _ => ⟨k, c, hfc⟩, ?_⟩
    · intro k1 c1 hfc1
      obtain ⟨-, hcc⟩ := first_connected_unique dev res.connectors k k1 c c1 hfc hfc1
      subst hcc
      exact ⟨out, hb, ho1, ho2, by rw [ho1]; exact hfc.2.1⟩
    · intro hnone
      obtain ⟨⟨cid, hk, hc⟩, hconn, -⟩ := hfc
      exact absurd hconn (hnone k cid c hk hc)
  · refine ⟨?_, ?_, fun _ => hb⟩
    · intro k c hfc
      obtain ⟨⟨cid, hk, hc⟩, hconn, -⟩ := hfc
      exact absurd hconn (hnone k cid c hk hc)
    · rintro ⟨k, cid, c, hk, hc, hconn⟩
      exact absurd hconn (hnone k cid c hk hc)

theorem dev_multi_first_connected : first_connected dev_multi res_multi.connectors 2 conn_paired := by
  refine ⟨⟨7, rfl, rfl⟩, rfl, ?_⟩
  intro k1 cid1 c1 hlt hk1 hc1
  have hcases : k1 = 0 ∨ k1 = 1 := by omega
  rcases hcases with h0 | h1
  · subst h0
    cases hk1
    cases hc1
  · subst h1
    cases hk1
    cases hc1
    decide

/-- C3 on an example: of the connectors 6 (not obtainable), 8 (disconnected), 7 and 9
(both connected), the output is bound to connector 7. -/
theorem init_kms_binds_first_connected_witness :
    0 ≤ dev_multi.setClientCap ∧ dev_multi.getResources = some res_multi ∧
      ∃ out : drm_output, init_kms dev_multi = some out ∧ out.connector = conn_paired ∧
        out.connector_id = conn_paired.connector_id ∧
        out.connector.connection = drmModeConnection.DRM_MODE_CONNECTED :=
  ⟨by decide, rfl,
    (init_kms_binds_first_connected dev_multi res_multi (by decide) rfl).1 2 conn_paired
      dev_multi_first_connected⟩

/-- C6, the code at the failing input: the connected connector's only encoder
advertises no CRTC, `find_crtc_for_connector` yields `-1`, and `init_kms` still returns
an output; its `crtc_id` is the stray word read at `crtcs[-1]`, not a CRTC of the
resource table. -/
theorem init_kms_without_crtc_returns_output :
    find_crtc_for_connector dev_no_crtc res_three conn_no_crtc = -1 ∧
      (∃ out : drm_output, init_kms dev_no_crtc = some out ∧
        out.connector = conn_no_crtc ∧ out.crtc_id = res_three.stray) ∧
      res_three.stray ∉ res_three.crtcs := by
  refine ⟨by decide, ⟨_, rfl, rfl, rfl⟩, by decide⟩

/-! ## Properties of scanout -/

theorem surface_matches_iff (dpy : drm_dpy) (ds : DisplaySurface) :
    surface_matches dpy ds = true ↔
      (ds.width = dpy.output.width ∧ ds.height = dpy.output.height ∧
        ds.format = PIXMAN_x8r8g8b8) := by
  simp [surface_matches, and_assoc]

theorem flush_blocked (dpy : drm_dpy) (x y w h : Nat) (hb : commit_blocked dpy) :
    (drm_scanout_flush dpy x y w h).status ≠ FlushStatus.presented ∧
      (drm_scanout_flush dpy x y w h).cmds = [] ∧
      (drm_scanout_flush dpy x y w h).dpy = dpy := by
  unfold drm_scanout_flush
  cases hds : dpy.ds with
  | none => simp
  | some ds =>
    simp only
    by_cases hm : surface_matches dpy ds = true
    · have hm1 : (!surface_matches dpy ds) = false := by simp [hm]
      rw [hm1]
      simp only [Bool.false_eq_true, if_false]
      have hnomode : choose_mode dpy = none := by
        rcases hb with h1 | ⟨ds1, h1, h2⟩ | h3
        · rw [hds] at h1
          cases h1
        · rw [hds] at h1
          cases h1
          obtain ⟨e1, e2, e3⟩ := (surface_matches_iff dpy ds).1 hm
          rcases h2 with h2 | h2 | h2
          · exact absurd e1 h2
          · exact absurd e2 h2
          · exact absurd e3 h2
        · exact h3
      rw [hnomode]
      simp
    · have hm1 : (!surface_matches dpy ds) = true := by simpa using hm
      rw [hm1]
      simp

theorem flush_presented (dpy : drm_dpy) (x y w h m : Nat) (hs : surface_ok dpy)
    (hmode : choose_mode dpy = some m) :
    drm_scanout_flush dpy x y w h =
      { status := FlushStatus.presented
        dpy := { dpy with output := { dpy.output with mode := m } }
        cmds :=
          [Cmd.drmModeSetCrtc dpy.output.crtc_id dpy.output.fb_id 0 0
            [dpy.output.connector_id] m] ++
          (if dpy.output.has_cursor = true then
            [Cmd.drmModeSetCursor dpy.output.crtc_id dpy.output.cursor_handle
              dpy.output.cursor_w dpy.output.cursor_h,
             Cmd.drmModeMoveCursor dpy.output.crtc_id dpy.pos_x dpy.pos_y]
           else []) ++
          [Cmd.dpy_gfx_update x y w h] } := by
  obtain ⟨ds, hds, e1, e2, e3⟩ := hs
  unfold drm_scanout_flush
  rw [hds]
  simp only
  have hm1 : (!surface_matches dpy ds) = false := by
    simp [(surface_matches_iff dpy ds).2 ⟨e1, e2, e3⟩]
  rw [hm1, hmode]
  simp

theorem flush_presented_iff (dpy : drm_dpy) (x y w h : Nat) :
    (drm_scanout_flush dpy x y w h).status = FlushStatus.presented ↔
      (surface_ok dpy ∧ ∃ m : Nat, choose_mode dpy = some m) := by
  constructor
  · intro hst
    by_contra hcon
    have hb : commit_blocked dpy := by
      cases hds : dpy.ds with
      | none => exact Or.inl hds
      | some ds =>
        by_cases hm : surface_matches dpy ds = true
        · cases hcm : choose_mode dpy with
          | none => exact Or.inr (Or.inr hcm)
          | some m =>
            exfalso
            apply hcon
            obtain ⟨e1, e2, e3⟩ := (surface_matches_iff dpy ds).1 hm
            exact ⟨⟨ds, hds, e1, e2, e3⟩, m, hcm⟩
        · refine Or.inr (Or.inl ⟨ds, hds, ?_⟩)
          by_contra hall
          apply hm
          rw [surface_matches_iff]
          refine ⟨?_, ?_, ?_⟩
          · by_contra h1
            exact hall (Or.inl h1)
          · by_contra h1
            exact hall (Or.inr (Or.inl h1))
          · by_contra h1
            exact hall (Or.inr (Or.inr h1))
    exact (flush_blocked dpy x y w h hb).1 hst
  · rintro ⟨hs, m, hm⟩
    rw [flush_presented dpy x y w h m hs hm]

/-- C7: a commit that does not reach the CRTC set (surface absent, surface not matching
the output's width, height and the required format, or no fitting mode) ends with an
error status, makes no call at all (no CRTC set, no cursor command, no notification)
and leaves the whole session, every output field and the cursor position, as it was.
In particular, after a successful import of `A`, a successful commit, and a
successful import of `B`, a commit for which no mode fits leaves `fb_id` at the id of
`B` and `mode` at the mode committed for `A`. -/
theorem flush_without_setcrtc_is_atomic :
    (∀ (dpy : drm_dpy) (x y w h : Nat), commit_blocked dpy →
      (drm_scanout_flush dpy x y w h).status ≠ FlushStatus.presented ∧
      (drm_scanout_flush dpy x y w h).cmds = [] ∧
      (drm_scanout_flush dpy x y w h).dpy = dpy) ∧
    (∀ (d0 : drm_dpy) (bufA bufB : QemuDmaBuf) (hA idA hB idB mA : Nat)
      (ds1 ds2 : Option DisplaySurface) (x1 y1 w1 h1 x2 y2 w2 h2 : Nat),
      surface_ok (imported d0 bufA hA idA ds1) →
      choose_mode (imported d0 bufA hA idA ds1) = some mA →
      choose_mode
        (imported (drm_scanout_flush (imported d0 bufA hA idA ds1) x1 y1 w1 h1).dpy
          bufB hB idB ds2) = none →
      (drm_scanout_flush (imported d0 bufA hA idA ds1) x1 y1 w1 h1).status =
        FlushStatus.presented ∧
      (drm_scanout_flush (imported d0 bufA hA idA ds1) x1 y1 w1 h1).dpy.output.mode = mA ∧
      (drm_scanout_flush
        (imported (drm_scanout_flush (imported d0 bufA hA idA ds1) x1 y1 w1 h1).dpy
          bufB hB idB ds2) x2 y2 w2 h2).status ≠ FlushStatus.presented ∧
      (drm_scanout_flush
        (imported (drm_scanout_flush (imported d0 bufA hA idA ds1) x1 y1 w1 h1).dpy
          bufB hB idB ds2) x2 y2 w2 h2).cmds = [] ∧
      (drm_scanout_flush
        (imported (drm_scanout_flush (imported d0 bufA hA idA ds1) x1 y1 w1 h1).dpy
          bufB hB idB ds2) x2 y2 w2 h2).dpy.output.fb_id = idB ∧
      (drm_scanout_flush
        (imported (drm_scanout_flush (imported d0 bufA hA idA ds1) x1 y1 w1 h1).dpy
          bufB hB idB ds2) x2 y2 w2 h2).dpy.output.mode = mA) := by
  refine ⟨fun dpy x y w h hb => flush_blocked dpy x y w h hb, ?_⟩
  intro d0 bufA bufB hA idA hB idB mA ds1 ds2 x1 y1 w1 h1 x2 y2 w2 h2 hs hmA hnone
  have hfirst := flush_presented (imported d0 bufA hA idA ds1) x1 y1 w1 h1 mA hs hmA
  obtain ⟨hst, hcmds, hdpy⟩ :=
    flush_blocked _ x2 y2 w2 h2 (Or.inr (Or.inr hnone))
  refine ⟨by rw [hfirst], by rw [hfirst], hst, hcmds, ?_, ?_⟩
  · rw [hdpy]
    rfl
  · rw [hdpy, hfirst]
    rfl

/-- C7 on examples: with the output at `1920x1080` and the surface at `1280x720` the
commit is blocked and `fb_id` stays 11; and after importing a `1920x1080` buffer
(framebuffer 1), committing, and importing a `320x200` buffer (framebuffer 2) for which
no mode fits, `fb_id` is 2 and `mode` is still the mode 0 committed before. -/
theorem flush_without_setcrtc_is_atomic_witness :
    (commit_blocked dpy_mismatched ∧
      (drm_scanout_flush dpy_mismatched 0 0 1280 720).status ≠ FlushStatus.presented ∧
      (drm_scanout_flush dpy_mismatched 0 0 1280 720).cmds = [] ∧
      (drm_scanout_flush dpy_mismatched 0 0 1280 720).dpy = dpy_mismatched) ∧
    ((drm_scanout_flush
        (imported
          (drm_scanout_flush (imported dpy_full_hd buf_full_hd 5 1 dpy_full_hd.ds)
            0 0 1920 1080).dpy
          buf_small 6 2 (some surface_small)) 0 0 320 200).dpy.output.fb_id = 2 ∧
      (drm_scanout_flush
        (imported
          (drm_scanout_flush (imported dpy_full_hd buf_full_hd 5 1 dpy_full_hd.ds)
            0 0 1920 1080).dpy
          buf_small 6 2 (some surface_small)) 0 0 320 200).dpy.output.mode = 0) :=
  have hblocked : commit_blocked dpy_mismatched :=
    Or.inr (Or.inl ⟨_, rfl, Or.inl (by decide)⟩)
  have hscenario :=
    flush_without_setcrtc_is_atomic.2 dpy_full_hd buf_full_hd buf_small 5 1 6 2 0
      dpy_full_hd.ds (some surface_small) 0 0 1920 1080 0 0 320 200
      ⟨_, rfl, rfl, rfl, rfl⟩ (by decide) (by decide)
  ⟨⟨hblocked, flush_without_setcrtc_is_atomic.1 dpy_mismatched 0 0 1280 720 hblocked⟩,
    hscenario.2.2.2.2.1, hscenario.2.2.2.2.2⟩

/-- C8: when the surface precondition holds and `choose_mode` returns `m`, the commit
makes exactly these calls, in this order: the CRTC set with `crtc_id`, `fb_id`, offset
`(0, 0)`, the one connector `connector_id` and mode `m`; then, exactly when `has_cursor`
is set, the cursor image (`cursor_handle`, `cursor_w`, `cursor_h`) followed by the cursor
position (`pos_x`, `pos_y`); then the notification for the region `(x, y, w, h)`; and
`mode` becomes `m`. In particular a commit right after a cursor import with no buffer
makes no cursor call. -/
theorem flush_command_sequence :
    (∀ (dpy : drm_dpy) (x y w h m : Nat), surface_ok dpy → choose_mode dpy = some m →
      (drm_scanout_flush dpy x y w h).cmds =
        [Cmd.drmModeSetCrtc dpy.output.crtc_id dpy.output.fb_id 0 0
          [dpy.output.connector_id] m] ++
        (if dpy.output.has_cursor = true then
          [Cmd.drmModeSetCursor dpy.output.crtc_id dpy.output.cursor_handle
            dpy.output.cursor_w dpy.output.cursor_h,
           Cmd.drmModeMoveCursor dpy.output.crtc_id dpy.pos_x dpy.pos_y]
         else []) ++
        [Cmd.dpy_gfx_update x y w h] ∧
      (drm_scanout_flush dpy x y w h).dpy.output.mode = m ∧
      (drm_scanout_flush dpy x y w h).status = FlushStatus.presented) ∧
    (∀ (dpy : drm_dpy) (x y w h : Nat) (c : Cmd),
      c ∈ (drm_scanout_flush (drm_cursor_dmabuf dpy none) x y w h).cmds →
      c.isCursor = false) := by
  constructor
  · intro dpy x y w h m hs hm
    rw [flush_presented dpy x y w h m hs hm]
    exact ⟨rfl, rfl, rfl⟩
  · intro dpy x y w h c hc
    by_cases hp : (drm_scanout_flush (drm_cursor_dmabuf dpy none) x y w h).status =
        FlushStatus.presented
    · obtain ⟨hs, m, hm⟩ := (flush_presented_iff _ x y w h).1 hp
      rw [flush_presented _ x y w h m hs hm] at hc
      have hcur : (drm_cursor_dmabuf dpy none).output.has_cursor = false := rfl
      simp only [hcur, Bool.false_eq_true, if_false, List.append_nil, List.singleton_append,
        List.mem_cons, List.mem_singleton, List.not_mem_nil, or_false] at hc
      rcases hc with hc | hc
      · rw [hc]
        rfl
      · rw [hc]
        rfl
    · have hb : commit_blocked (drm_cursor_dmabuf dpy none) := by
        by_contra hnb
        apply hp
        rw [flush_presented_iff]
        constructor
        · by_contra hns
          apply hnb
          cases hds : (drm_cursor_dmabuf dpy none).ds with
          | none => exact Or.inl hds
          | some ds =>
            refine Or.inr (Or.inl ⟨ds, hds, ?_⟩)
            by_contra hall
            apply hns
            refine ⟨ds, hds, ?_, ?_, ?_⟩
            · by_contra h1
              exact hall (Or.inl h1)
            · by_contra h1
              exact hall (Or.inr (Or.inl h1))
            · by_contra h1
              exact hall (Or.inr (Or.inr h1))
        · cases hcm : choose_mode (drm_cursor_dmabuf dpy none) with
          | none => exact absurd (Or.inr (Or.inr hcm)) hnb
          | some m => exact ⟨m, rfl⟩
      rw [(flush_blocked _ x y w h hb).2.1] at hc
      cases hc

/-- C8 on an example: with a cursor imported (handle 9, `64x64`) and placed at
`(100, 50)`, the commit makes the four calls in order. -/
theorem flush_command_sequence_witness :
    surface_ok dpy_with_cursor ∧ choose_mode dpy_with_cursor = some 0 ∧
      (drm_scanout_flush dpy_with_cursor 0 0 1920 1080).cmds =
        [Cmd.drmModeSetCrtc 3 11 0 0 [7] 0, Cmd.drmModeSetCursor 3 9 64 64,
          Cmd.drmModeMoveCursor 3 100 50, Cmd.dpy_gfx_update 0 0 1920 1080] :=
  have hs : surface_ok dpy_with_cursor := ⟨_, rfl, rfl, rfl, rfl⟩
  have hm : choose_mode dpy_with_cursor = some 0 := by decide
  ⟨hs, hm, (flush_command_sequence.1 dpy_with_cursor 0 0 1920 1080 0 hs hm).1.trans rfl⟩

/-! ## The bound on live framebuffers -/

theorem flush_keeps_fb_id (dpy : drm_dpy) (x y w h : Nat) :
    (drm_scanout_flush dpy x y w h).dpy.output.fb_id = dpy.output.fb_id := by
  by_cases hp : (drm_scanout_flush dpy x y w h).status = FlushStatus.presented
  · obtain ⟨hs, m, hm⟩ := (flush_presented_iff dpy x y w h).1 hp
    rw [flush_presented dpy x y w h m hs hm]
  · have hb : commit_blocked dpy := by
      by_contra hnb
      apply hp
      rw [flush_presented_iff]
      constructor
      · by_contra hns
        apply hnb
        cases hds : dpy.ds with
        | none => exact Or.inl hds
        | some ds =>
          refine Or.inr (Or.inl ⟨ds, hds, ?_⟩)
          by_contra hall
          apply hns
          refine ⟨ds, hds, ?_, ?_, ?_⟩
          · by_contra h1
            exact hall (Or.inl h1)
          · by_contra h1
            exact hall (Or.inr (Or.inl h1))
          · by_contra h1
            exact hall (Or.inr (Or.inr h1))
      · cases hcm : choose_mode dpy with
        | none => exact absurd (Or.inr (Or.inr hcm)) hnb
        | some m => exact ⟨m, rfl⟩
    rw [(flush_blocked dpy x y w h hb).2.2]

theorem cursor_dmabuf_keeps_fb_id (dpy : drm_dpy) (arg : Option (QemuDmaBuf × Option Nat)) :
    (drm_cursor_dmabuf dpy arg).output.fb_id = dpy.output.fb_id := by
  rcases arg with _ | ⟨buf, _ | handle⟩ <;> rfl

/-- One event keeps the invariant, provided a successful import does not come while an
earlier one is unreleased. -/
theorem step_one_live (w : World) (pending : Bool) (e : Event) (hinv : one_live w pending)
    (hok : import_succeeds e = true → pending = false) :
    one_live (step w e) (pending_after pending e) := by
  obtain ⟨hlen, hrun⟩ := hinv
  by_cases hh : w.halted = true
  · have hstep : step w e = w := by
      cases e <;> simp [step, hh]
    rw [hstep]
    refine ⟨hlen, ?_⟩
    intro hf
    rw [hh] at hf
    cases hf
  · have hh0 : w.halted = false := by simpa using hh
    have hlive := hrun hh0
    cases e with
    | ImportPrimaryBuffer dmabuf handle addfb =>
      cases handle with
      | none =>
        have hl : (step w (Event.ImportPrimaryBuffer dmabuf none addfb)).live = w.live := by
          simp [step, hh0]
        have hf : (step w (Event.ImportPrimaryBuffer dmabuf none addfb)).dpy.output.fb_id =
            w.dpy.output.fb_id := by
          simp [step, hh0, drm_scanout_dmabuf]
        have hpe : pending_after pending (Event.ImportPrimaryBuffer dmabuf none addfb) =
            pending := by
          simp [pending_after, import_succeeds]
        rw [hpe]
        refine ⟨by rw [hl]; exact hlen, fun _ => ?_⟩
        rw [hl, hf]
        exact hlive
      | some hd =>
        cases addfb with
        | none =>
          have hl : (step w (Event.ImportPrimaryBuffer dmabuf (some hd) none)).live =
              w.live := by
            simp [step, hh0]
          have hf : (step w (Event.ImportPrimaryBuffer dmabuf (some hd) none)).dpy.output.fb_id =
              w.dpy.output.fb_id := by
            simp [step, hh0, drm_scanout_dmabuf]
          have hpe : pending_after pending (Event.ImportPrimaryBuffer dmabuf (some hd) none) =
              pending := by
            simp [pending_after, import_succeeds]
          rw [hpe]
          refine ⟨by rw [hl]; exact hlen, fun _ => ?_⟩
          rw [hl, hf]
          exact hlive
        | some fb =>
          have hp : pending = false := hok rfl
          have hempty : w.live = [] := by
            rcases hlive with h1 | ⟨h1, -⟩
            · exact h1
            · rw [hp] at h1
              cases h1
          have hl : (step w (Event.ImportPrimaryBuffer dmabuf (some hd) (some fb))).live =
              [fb] := by
            simp [step, hh0, hempty]
          have hf : (step w (Event.ImportPrimaryBuffer dmabuf (some hd) (some fb))).dpy.output.fb_id =
              fb := by
            simp [step, hh0, drm_scanout_dmabuf]
          refine ⟨by rw [hl]; simp, fun _ => Or.inr ⟨rfl, ?_⟩⟩
          rw [hl, hf]
    | ImportCursorBuffer arg =>
      have hl : (step w (Event.ImportCursorBuffer arg)).live = w.live := by
        simp [step, hh0]
      have hf : (step w (Event.ImportCursorBuffer arg)).dpy.output.fb_id =
          w.dpy.output.fb_id := by
        simp [step, hh0, cursor_dmabuf_keeps_fb_id]
      have hpe : pending_after pending (Event.ImportCursorBuffer arg) = pending := by
        simp [pending_after, import_succeeds]
      rw [hpe]
      refine ⟨by rw [hl]; exact hlen, fun _ => ?_⟩
      rw [hl, hf]
      exact hlive
    | SetCursorPosition x y =>
      have hl : (step w (Event.SetCursorPosition x y)).live = w.live := by
        simp [step, hh0]
      have hf : (step w (Event.SetCursorPosition x y)).dpy.output.fb_id =
          w.dpy.output.fb_id := by
        simp [step, hh0, drm_cursor_position]
      have hpe : pending_after pending (Event.SetCursorPosition x y) = pending := by
        simp [pending_after, import_succeeds]
      rw [hpe]
      refine ⟨by rw [hl]; exact hlen, fun _ => ?_⟩
      rw [hl, hf]
      exact hlive
    | ReleaseBuffer =>
      have hl : (step w Event.ReleaseBuffer).live = [] := by
        rcases hlive with h1 | ⟨-, h1⟩
        · simp [step, hh0, drm_release_dmabuf, device_apply, h1]
        · simp [step, hh0, drm_release_dmabuf, device_apply, h1]
      refine ⟨by rw [hl]; simp, fun _ => Or.inl hl⟩
    | Commit x y width height =>
      have hl : (step w (Event.Commit x y width height)).live = w.live := by
        simp [step, hh0]
      have hf : (step w (Event.Commit x y width height)).dpy.output.fb_id =
          w.dpy.output.fb_id := by
        simp [step, hh0, flush_keeps_fb_id]
      have hpe : pending_after pending (Event.Commit x y width height) = pending := by
        simp [pending_after, import_succeeds]
      rw [hpe]
      refine ⟨by rw [hl]; exact hlen, fun _ => ?_⟩
      rw [hl, hf]
      exact hlive
    | SurfaceChanged new_surface =>
      have hl : (step w (Event.SurfaceChanged new_surface)).live = w.live := by
        simp [step, hh0]
      have hf : (step w (Event.SurfaceChanged new_surface)).dpy.output.fb_id =
          w.dpy.output.fb_id := by
        simp [step, hh0, drm_gfx_switch]
      have hpe : pending_after pending (Event.SurfaceChanged new_surface) = pending := by
        simp [pending_after, import_succeeds]
      rw [hpe]
      refine ⟨by rw [hl]; exact hlen, fun _ => ?_⟩
      rw [hl, hf]
      exact hlive

theorem run_one_live (events : List Event) (w : World) (pending : Bool)
    (hinv : one_live w pending) (hd : released_before_import pending events = true) :
    (run w events).live.length ≤ 1 := by
  induction events generalizing w pending with
  | nil => exact hinv.1
  | cons e rest ih =>
    have hrun : run w (e :: rest) = run (step w e) rest := rfl
    rw [hrun]
    unfold released_before_import at hd
    by_cases hi : import_succeeds e = true
    · rw [if_pos hi] at hd
      simp only [Bool.and_eq_true, Bool.not_eq_true'] at hd
      have hpa : pending_after pending e = true := by simp [pending_after, hi]
      have hstep := step_one_live w pending e hinv (fun _ => hd.1)
      rw [hpa] at hstep
      exact ih (step w e) true hstep hd.2
    · rw [if_neg hi] at hd
      by_cases hr : e = Event.ReleaseBuffer
      · rw [if_pos hr] at hd
        have hpa : pending_after pending e = false := by
          rw [hr]
          simp [pending_after, import_succeeds]
        have hstep := step_one_live w pending e hinv (fun h => absurd h hi)
        rw [hpa] at hstep
        exact ih (step w e) false hstep hd
      · rw [if_neg hr] at hd
        have hpa : pending_after pending e = pending := by simp [pending_after, hi, hr]
        have hstep := step_one_live w pending e hinv (fun h => absurd h hi)
        rw [hpa] at hstep
        exact ih (step w e) pending hstep hd

/-- C9, refuted as stated: from the freshly bound output, two successful imports of a
primary buffer in a row (framebuffer ids 1 and 2) leave both framebuffers registered
and neither removed: two live framebuffers. -/
theorem two_imports_two_live_counterexample :
    init_kms dev_multi = some output_fresh ∧
      (run (fresh_world output_fresh)
        [Event.ImportPrimaryBuffer buf_full_hd (some 5) (some 1),
         Event.ImportPrimaryBuffer buf_small (some 6) (some 2)]).live = [1, 2] ∧
      ¬ (run (fresh_world output_fresh)
        [Event.ImportPrimaryBuffer buf_full_hd (some 5) (some 1),
         Event.ImportPrimaryBuffer buf_small (some 6) (some 2)]).live.length ≤ 1 := by
  decide

/-- C9, amended: in every state reached from the freshly bound output by a sequence of
events in which every successful import of a primary buffer comes while no earlier
successful import is unreleased (a `ReleaseBuffer` lies between any two of them), at
most one primary framebuffer registered on the device is live. -/
theorem at_most_one_live_when_released (output : drm_output) (events : List Event)
    (hd : released_before_import false events = true) :
    (run (fresh_world output) events).live.length ≤ 1 := by
  apply run_one_live events (fresh_world output) false _ hd
  exact ⟨by simp [fresh_world], fun _ => Or.inl rfl⟩

/-- C9, amended, on an example: import, commit, release, import, cursor move, commit
leaves one live framebuffer, the second one. -/
theorem at_most_one_live_when_released_witness :
    released_before_import false
        [Event.ImportPrimaryBuffer buf_full_hd (some 5) (some 1),
         Event.SurfaceChanged dpy_full_hd.ds,
         Event.Commit 0 0 1920 1080,
         Event.ReleaseBuffer,
         Event.ImportPrimaryBuffer buf_full_hd (some 6) (some 2),
         Event.SetCursorPosition 10 10,
         Event.Commit 0 0 1920 1080] = true ∧
      (run (fresh_world output_fresh)
        [Event.ImportPrimaryBuffer buf_full_hd (some 5) (some 1),
         Event.SurfaceChanged dpy_full_hd.ds,
         Event.Commit 0 0 1920 1080,
         Event.ReleaseBuffer,
         Event.ImportPrimaryBuffer buf_full_hd (some 6) (some 2),
         Event.SetCursorPosition 10 10,
         Event.Commit 0 0 1920 1080]).live = [2] ∧
      (run (fresh_world output_fresh)
        [Event.ImportPrimaryBuffer buf_full_hd (some 5) (some 1),
         Event.SurfaceChanged dpy_full_hd.ds,
         Event.Commit 0 0 1920 1080,
         Event.ReleaseBuffer,
         Event.ImportPrimaryBuffer buf_full_hd (some 6) (some 2),
         Event.SetCursorPosition 10 10,
         Event.Commit 0 0 1920 1080]).live.length ≤ 1 :=
  ⟨by decide, by decide,
    at_most_one_live_when_released output_fresh _ (by decide)⟩

end Drm
